import Mathlib

/-!
Formal model of the fitonduty-database seeding and mock-data generation engine
(src/python/db_manager.py), together with theorems checking the specification's
claims about it.

Modelling conventions:
* calendar dates are proleptic-Gregorian ordinal numbers, as returned by
  Python's `date.toordinal()` (so `weekday` is an offset `mod 7`);
* Python floats are modelled as exact rationals;
* every draw from the process-wide `random` generator is an explicit
  parameter of the function that consumes it (the stream of draws is a pure
  function of the seed passed to `random.seed`, so any property quantified
  over all draw values covers every realisable stream);
* the PostgreSQL database is a record of lists of rows, and each SQL
  statement of the source is modelled by the corresponding pure update;
* a raised exception that the source catches is modelled by the `Option` /
  early-return branch that mirrors the `except` handler.
-/

/-- Python `int()` applied to a float: truncation toward zero. -/
def pyInt (x : ℚ) : ℤ := if 0 ≤ x then ⌊x⌋ else ⌈x⌉

/-- Python `round()` to an integer: round half to even. -/
def roundHalfEven (x : ℚ) : ℤ :=
  let f := ⌊x⌋
  if x - f < 1/2 then f
  else if 1/2 < x - f then f + 1
  else if 2 ∣ f then f else f + 1

/-- Python `round(x, 4)`: round to four decimal places, half to even. -/
def pyRound4 (x : ℚ) : ℚ := (roundHalfEven (x * 10000) : ℚ) / 10000

/-- Python `date.weekday()` for an ordinal day number (Monday = 0;
    ordinal 1, 0001-01-01, is a Monday). -/
def weekday (d : ℕ) : ℕ := (d + 6) % 7

/-! ### Heart-rate zone shares (db_manager.py 397-413) -/

/-- The fixed base percentages for the five heart-rate zones
    (db_manager.py line 402). -/
def basePercentages : List ℚ := [30, 25, 20, 15, 10]

/-- db_manager.py 403-404: each zone value is its base percentage plus a
    Gaussian draw (`random.normalvariate(0, 5)`), clamped to [0, 100].  The
    noise draws are the explicit `noise` parameter. -/
def zoneValuesRaw (noise : List ℚ) : List ℚ :=
  (basePercentages.zip noise).map fun p => max 0 (min 100 (p.1 + p.2))

/-- db_manager.py 406-409: renormalise the clamped zone values so that they
    sum to 100, guarded by `if zone_sum > 0`. -/
def zoneValuesNorm (noise : List ℚ) : List ℚ :=
  let vs := zoneValuesRaw noise
  let s := vs.sum
  if 0 < s then vs.map fun v => v / s * 100 else vs

/-! ### Movement-speed minutes (db_manager.py 415-432) -/

structure Movement where
  walking_minutes : ℤ
  walking_fast_minutes : ℤ
  jogging_minutes : ℤ
  running_minutes : ℤ
  deriving DecidableEq

/-- db_manager.py 415-432: split a sampled active-minutes budget across the
    four movement categories.  `wPct`, `fPct`, `jPct` are the three uniform
    draws (walking ∈ [0.4,0.7], fast-walking ∈ [0.15,0.35],
    jogging ∈ [0.05,0.25]); running is the remainder floored at 0.01; the
    four proportions are renormalised and each minute count is the Python
    `int()` (truncation) of budget × proportion. -/
def movementMinutes (wPct fPct jPct : ℚ) (totalActive : ℕ) : Movement :=
  let rPct := max (1/100) (1 - wPct - fPct - jPct)
  let totalPct := wPct + fPct + jPct + rPct
  { walking_minutes := pyInt ((totalActive : ℚ) * (wPct / totalPct))
    walking_fast_minutes := pyInt ((totalActive : ℚ) * (fPct / totalPct))
    jogging_minutes := pyInt ((totalActive : ℚ) * (jPct / totalPct))
    running_minutes := pyInt ((totalActive : ℚ) * (rPct / totalPct)) }

/-! ### One day's generated health-metric record (db_manager.py 379-432) -/

structure Metrics where
  resting_hr : ℤ
  max_hr : ℤ
  sleep_hours : ℚ
  hrv_rest : ℤ
  step_count : ℤ
  zones : Option (ℚ × ℚ × ℚ × ℚ × ℚ)
  movement : Option Movement
  deriving DecidableEq

/-- The per-user baseline draws of db_manager.py 353-357
    (`resting_hr_base = random.randint(55, 70)` and so on). -/
structure UserBaseRand where
  resting_hr_base : ℤ
  max_hr_base : ℤ
  sleep_base : ℚ
  hrv_base : ℤ
  step_count_base : ℤ
  deriving DecidableEq

/-- The per-date draws consumed by the loop body of db_manager.py 379-432,
    in consumption order. -/
structure DayRand where
  rhrJitter : ℤ
  mhrJitter : ℤ
  sleepNoise : ℚ
  hrvJitter : ℤ
  stepJitter : ℤ
  zNoise1 : ℚ
  zNoise2 : ℚ
  zNoise3 : ℚ
  zNoise4 : ℚ
  zNoise5 : ℚ
  totalActive : ℕ
  wPct : ℚ
  fPct : ℚ
  jPct : ℚ
  deriving DecidableEq

/-- db_manager.py 412-413: the normalised zone list is zipped with the five
    zone names into the metrics dict. -/
def zonesOf (noise : List ℚ) : ℚ × ℚ × ℚ × ℚ × ℚ :=
  let l := zoneValuesNorm noise
  (l.getD 0 0, l.getD 1 0, l.getD 2 0, l.getD 3 0, l.getD 4 0)

/-- db_manager.py 384-432: the metrics dict generated for one date. -/
def dayMetrics (base : UserBaseRand) (d : DayRand) (date : ℕ) : Metrics :=
  let weekendFactor : ℚ := if 5 ≤ weekday date then 8/10 else 1
  { resting_hr := base.resting_hr_base + d.rhrJitter
    max_hr := base.max_hr_base + d.mhrJitter
    sleep_hours := max 0 (base.sleep_base + d.sleepNoise)
    hrv_rest := max 10 (base.hrv_base + d.hrvJitter)
    step_count := pyInt ((base.step_count_base : ℚ) * weekendFactor + (d.stepJitter : ℚ))
    zones := some (zonesOf [d.zNoise1, d.zNoise2, d.zNoise3, d.zNoise4, d.zNoise5])
    movement := some (movementMinutes d.wPct d.fPct d.jPct d.totalActive) }

/-! ### Anomaly-score generation (db_manager.py 442-523) -/

structure AnomalyRecord where
  date : ℕ
  time_slot : ℕ
  score : ℚ
  label : Option String
  deriving DecidableEq

/-- db_manager.py 512: the vocabulary `random.choice` draws a spike label
    from (including `None`). -/
def anomalyLabels : List (Option String) :=
  [some "Activity spike", some "Sleep disruption", some "Stress event", none]

/-- The draws consumed by `generate_mock_anomaly_data` (db_manager.py
    471-484 and the loop at 489-514).  `anomaly_days` is the
    `random.sample(date_range, k=min(3, len(date_range)))` result (distinct
    dates) and `anomaly_times` the parallel `randint(0, slots_per_day-1)`
    list of the same length. -/
structure AnomalyRand where
  base_anomaly_level : ℚ
  morning_factor : ℚ
  afternoon_factor : ℚ
  evening_factor : ℚ
  night_factor : ℚ
  anomaly_days : List ℕ
  anomaly_times : List ℕ
  noise : ℕ → ℕ → ℚ
  spike_boost : ℕ → ℕ → ℚ
  spike_choice : ℕ → ℕ → Fin 4

/-- db_manager.py 463: `slots_per_day = 24 * 60 // interval_minutes`. -/
def slotsPerDay (interval_minutes : ℕ) : ℕ := 24 * 60 / interval_minutes

/-- db_manager.py 510: `date in anomaly_days and
    slot == anomaly_times[anomaly_days.index(date)]`. -/
def isSpike (r : AnomalyRand) (date slot : ℕ) : Bool :=
  decide (date ∈ r.anomaly_days) &&
    (slot == r.anomaly_times.getD (r.anomaly_days.indexOf date) 0)

/-- db_manager.py 490-521: the record appended for one (date, slot) pair. -/
def anomalyRecord (r : AnomalyRand) (interval_minutes date slot : ℕ) : AnomalyRecord :=
  let time_minutes := slot * interval_minutes
  let hour := time_minutes / 60
  let time_factor :=
    if 6 ≤ hour ∧ hour < 12 then r.morning_factor
    else if 12 ≤ hour ∧ hour < 18 then r.afternoon_factor
    else if 18 ≤ hour ∧ hour < 22 then r.evening_factor
    else r.night_factor
  let score := max 0 (min 1 (r.base_anomaly_level * time_factor + r.noise date slot))
  if isSpike r date slot then
    { date := date
      time_slot := time_minutes
      score := pyRound4 (min 1 (score + r.spike_boost date slot))
      label := anomalyLabels.getD (r.spike_choice date slot).val none }
  else
    { date := date, time_slot := time_minutes, score := pyRound4 score, label := none }

/-- db_manager.py 442-523: mock anomaly data for every date in the range and
    every slot of each day. -/
def generate_mock_anomaly_data (r : AnomalyRand) (start_date end_date interval_minutes : ℕ) :
    List AnomalyRecord :=
  let days := end_date + 1 - start_date
  ((List.range days).map (start_date + ·)).flatMap fun date =>
    (List.range (slotsPerDay interval_minutes)).map fun slot =>
      anomalyRecord r interval_minutes date slot

/-! ### Questionnaire generation (db_manager.py 205-267) -/

structure QRow where
  user_id : ℕ
  date : ℕ
  perceived_sleep_quality : ℤ
  fatigue_level : ℤ
  motivation_level : ℤ
  deriving DecidableEq

/-- The draws consumed by `generate_questionnaire_data`: the per-user
    baselines (db_manager.py 214-216), the 15% per-date skip decisions
    (line 225) and the per-date Gaussian draws (243, 248, 253); the
    variability scales are folded into the noise values. -/
structure QRand where
  base_sleep_quality : ℚ
  base_fatigue : ℚ
  base_motivation : ℚ
  skip : ℕ → Bool
  sleep_noise : ℕ → ℚ
  fatigue_noise : ℕ → ℚ
  motivation_noise : ℕ → ℚ

/-- db_manager.py 229-263: the questionnaire record for one non-skipped
    date (weekend sleep bonus +0.5, weekend motivation penalty -0.3,
    fatigue drifting up by weekday/6 × 1.5; each value clamped to [0,100]
    and rounded with Python `round`). -/
def qRecord (user_id date : ℕ) (qr : QRand) : QRow :=
  let wd := weekday date
  let weekendSleepBonus : ℚ := if 5 ≤ wd then 1/2 else 0
  let weekendMotivationPenalty : ℚ := if 5 ≤ wd then -(3/10) else 0
  let weeklyFatigueIncrease : ℚ := (wd : ℚ) / 6 * (3/2)
  { user_id := user_id
    date := date
    perceived_sleep_quality :=
      roundHalfEven (max 0 (min 100 (qr.base_sleep_quality + weekendSleepBonus + qr.sleep_noise date)))
    fatigue_level :=
      roundHalfEven (max 0 (min 100 (qr.base_fatigue + weeklyFatigueIncrease + qr.fatigue_noise date)))
    motivation_level :=
      roundHalfEven (max 0 (min 100 (qr.base_motivation + weekendMotivationPenalty + qr.motivation_noise date))) }

/-- db_manager.py 205-267: one questionnaire row per non-skipped date in
    the inclusive range. -/
def generate_questionnaire_data (user_id start_date end_date : ℕ) (qr : QRand) : List QRow :=
  (((List.range (end_date + 1 - start_date)).map (start_date + ·)).filter
    fun d => !(qr.skip d)).map fun d => qRecord user_id d qr

/-! ### Database state (tables of schema/tables, as used by db_manager.py) -/

structure UserRow where
  id : ℕ
  username : String
  password_hash : String
  role : String
  deriving DecidableEq

structure GroupRow where
  id : ℕ
  group_name : String
  description : String
  created_by : ℕ
  campaign_start_date : Option ℕ
  deriving DecidableEq

structure HealthRow where
  id : ℕ
  user_id : ℕ
  date : ℕ
  metrics : Metrics
  data_volume : ℕ
  deriving DecidableEq

structure ZoneRow where
  health_metric_id : ℕ
  very_light_percent : ℚ
  light_percent : ℚ
  moderate_percent : ℚ
  intense_percent : ℚ
  beast_mode_percent : ℚ
  deriving DecidableEq

structure MoveRow where
  health_metric_id : ℕ
  mv : Movement
  deriving DecidableEq

structure ARow where
  user_id : ℕ
  date : ℕ
  time_slot : ℕ
  score : ℚ
  label : Option String
  deriving DecidableEq

/-- The database: one list of rows per table, plus the serial-id counters
    for the tables whose generated ids the source reads back. -/
structure DB where
  users : List UserRow
  groups : List GroupRow
  user_groups : List (ℕ × ℕ)
  health_metrics : List HealthRow
  heart_rate_zones : List ZoneRow
  movement_speeds : List MoveRow
  questionnaire_data : List QRow
  anomaly_scores : List ARow
  next_user_id : ℕ
  next_group_id : ℕ
  next_health_id : ℕ
  deriving DecidableEq

/-! ### Persistence layer (db_manager.py 526-748) -/

/-- db_manager.py 665-693.  The generated metrics dict carries either all
    five zone keys or none (and likewise for movement), so the `any`
    presence test of the source coincides with the `all` test and with the
    `Option` being `some`. -/
def calculate_data_volume (m : Metrics) : ℕ :=
  40 + (if m.zones.isSome then 40 else 0) + (if m.movement.isSome then 16 else 0) + 2304

/-- db_manager.py 575-605 and 632-657: upsert of the two child rows, keyed
    by the parent metric id; each child is written only when its fields are
    present in the metrics dict. -/
def upsertChildren (db : DB) (hid : ℕ) (m : Metrics) : DB :=
  let db1 :=
    match m.zones with
    | some (z1, z2, z3, z4, z5) =>
        if db.heart_rate_zones.any fun z => z.health_metric_id == hid then
          { db with heart_rate_zones := db.heart_rate_zones.map fun z =>
              if z.health_metric_id == hid then ⟨hid, z1, z2, z3, z4, z5⟩ else z }
        else
          { db with heart_rate_zones := db.heart_rate_zones ++ [⟨hid, z1, z2, z3, z4, z5⟩] }
    | none => db
  match m.movement with
  | some mv =>
      if db1.movement_speeds.any fun z => z.health_metric_id == hid then
        { db1 with movement_speeds := db1.movement_speeds.map fun z =>
            if z.health_metric_id == hid then ⟨hid, mv⟩ else z }
      else
        { db1 with movement_speeds := db1.movement_speeds ++ [⟨hid, mv⟩] }
  | none => db1

/-- db_manager.py 526-662: validate, upsert the parent health_metrics row
    keyed by (user_id, date), read back its id, then upsert the children —
    all in one transaction.  The model's database engine never raises, so
    the failure paths are the input validations (a non-positive user id; in
    this ℕ model, id 0). -/
def save_health_metrics (db : DB) (user_id : ℕ) (date : ℕ) (m : Metrics) : DB × Bool :=
  let data_volume := calculate_data_volume m
  if user_id = 0 then (db, false)
  else
    match db.health_metrics.find? fun r => r.user_id == user_id && r.date == date with
    | some r =>
        let db1 := { db with health_metrics := db.health_metrics.map fun v =>
            if v.user_id == user_id && v.date == date then
              { v with metrics := m, data_volume := data_volume } else v }
        (upsertChildren db1 r.id m, true)
    | none =>
        let hid := db.next_health_id
        let db1 := { db with
          health_metrics := db.health_metrics ++
            [{ id := hid, user_id := user_id, date := date, metrics := m, data_volume := data_volume }]
          next_health_id := hid + 1 }
        (upsertChildren db1 hid m, true)

/-- The loop body of db_manager.py 379-436: skip the date if it is in
    `skip_dates`, otherwise generate the day's metrics, save them, and on
    success count the date and append it to the write trace (the third
    accumulator component records the dates actually written). -/
def importStep (user_id : ℕ) (base : UserBaseRand) (dayRand : ℕ → DayRand)
    (skip_dates : List ℕ) (acc : DB × ℕ × List ℕ) (date : ℕ) : DB × ℕ × List ℕ :=
  if date ∈ skip_dates then acc
  else
    let res := save_health_metrics acc.1 user_id date (dayMetrics base (dayRand date) date)
    if res.2 then (res.1, acc.2.1 + 1, acc.2.2 ++ [date]) else (res.1, acc.2.1, acc.2.2)

/-- db_manager.py 297-439: verify the user exists, validate the date range,
    collect the existing dates to skip (unless overwriting), process each
    date of the range, and report success iff at least one day was saved.
    `base` and `dayRand` are the draws of the user-seeded random stream. -/
def import_mock_data (db : DB) (user_id : ℕ) (start_date end_date : ℕ) (overwrite : Bool)
    (base : UserBaseRand) (dayRand : ℕ → DayRand) : DB × Bool × List ℕ :=
  if !(db.users.any fun u => u.id == user_id) then (db, false, [])
  else if end_date < start_date then (db, false, [])
  else
    let days := end_date - start_date + 1
    let date_range := (List.range days).map (start_date + ·)
    let skip_dates : List ℕ :=
      if overwrite then []
      else (db.health_metrics.filter fun r =>
        r.user_id == user_id && (start_date ≤ r.date && r.date ≤ end_date)).map fun r => r.date
    let out := date_range.foldl (importStep user_id base dayRand skip_dates) (db, 0, [])
    (out.1, decide (0 < out.2.1), out.2.2)

/-! ### Anomaly-score persistence (db_manager.py 696-748) -/

/-- db_manager.py 712-718: upsert of one anomaly_scores row, keyed by
    (user_id, date, time_slot); on conflict score and label are updated. -/
def upsertAnomalyRow (tbl : List ARow) (row : ARow) : List ARow :=
  if tbl.any fun t => t.user_id == row.user_id &&
      (t.date == row.date && t.time_slot == row.time_slot) then
    tbl.map fun t =>
      if t.user_id == row.user_id && (t.date == row.date && t.time_slot == row.time_slot) then
        { t with score := row.score, label := row.label }
      else t
  else tbl ++ [row]

/-- The batch loop of db_manager.py 722-743.  The whole loop runs inside a
    single `engine.begin()` transaction, so `none` (the database raising on
    the batch starting at offset `i`, modelled by `execFails i`) aborts the
    entire save.  Offsets are `range(0, len(data), 1000)`; each batch is
    `data[i:i+1000]`. -/
def runAnomalyBatches (user_id : ℕ) (data : List AnomalyRecord) (execFails : ℕ → Bool) :
    List ℕ → List ARow → ℕ → Option (List ARow × ℕ)
  | [], tbl, count => some (tbl, count)
  | i :: rest, tbl, count =>
      let batch := (data.drop i).take 1000
      if execFails i then none
      else
        runAnomalyBatches user_id data execFails rest
          (batch.foldl (fun t rec =>
            upsertAnomalyRow t ⟨user_id, rec.date, rec.time_slot, rec.score, rec.label⟩) tbl)
          (count + batch.length)

/-- db_manager.py 696-748: save the anomaly scores in batches of 1000 inside
    one transaction; on any batch failure the exception handler reports the
    error and returns 0, and nothing of the transaction is committed. -/
def save_anomaly_scores (tbl : List ARow) (user_id : ℕ) (data : List AnomalyRecord)
    (execFails : ℕ → Bool) : List ARow × ℕ :=
  if data.isEmpty then (tbl, 0)
  else
    match runAnomalyBatches user_id data execFails
        (List.range' 0 ((data.length + 999) / 1000) 1000) tbl 0 with
    | some out => out
    | none => (tbl, 0)

/-! ### Group creation (db_manager.py 915-968) -/

/-- Modelled from the spec: the groups table's name column is unique (§3,
    Group: "name (unique)").  The schema files that declare the constraint
    are not under src/, so the uniqueness test that makes a duplicate plain
    INSERT raise is modelled here from the spec's words. -/
def groupNameExists (db : DB) (group_name : String) : Bool :=
  db.groups.any fun g => g.group_name == group_name

/-- db_manager.py 915-968: look up the creator by username (returning None
    if absent), then plainly INSERT the group row — there is no ON CONFLICT
    clause, so inserting an existing group name raises the uniqueness
    violation, the handler reports it and returns None, and the transaction
    commits nothing.  The source uses two INSERT variants depending on
    whether a campaign start date is given; both are the same row write
    with an optional column, modelled by the `Option` field. -/
def create_group (db : DB) (group_name description created_by_username : String)
    (campaign_start_date : Option ℕ) : DB × Option ℕ :=
  match db.users.find? fun u => u.username == created_by_username with
  | none => (db, none)
  | some creator =>
      if groupNameExists db group_name then (db, none)
      else
        let gid := db.next_group_id
        ({ db with
            groups := db.groups ++
              [⟨gid, group_name, description, creator.id, campaign_start_date⟩]
            next_group_id := gid + 1 }, some gid)

/-! ### Seeding orchestrator (db_manager.py 751-912) -/

/-- A raw admin entry of the configuration file; a missing key is `none`
    (reading it raises KeyError in the source). -/
structure RawAdmin where
  username : Option String
  password : Option String
  deriving DecidableEq

structure RawGroup where
  name : Option String
  description : Option String
  created_by : Option String
  campaign_start_date : Option ℕ
  deriving DecidableEq

/-- A raw participant entry.  `groups` models the membership list after the
    source's single-string-to-list normalisation (db_manager.py 841-843);
    `generate_data` and `data_days` are read with `.get` defaults (True and
    60), so they cannot raise and are plain fields. -/
structure RawParticipant where
  username : Option String
  password : Option String
  groups : List String
  generate_data : Bool
  data_days : ℕ
  deriving DecidableEq

structure SeedConfig where
  admins : Option (List RawAdmin)
  groups : Option (List RawGroup)
  participants : Option (List RawParticipant)
  deriving DecidableEq

/-- The user-seeded random draws consumed by the generated-data stage for
    one participant. -/
structure GenRand where
  base : UserBaseRand
  day : ℕ → DayRand
  q : QRand
  anom : AnomalyRand

/-- db_manager.py 777-791 and 824-838: INSERT INTO users ... ON CONFLICT
    (username) DO UPDATE SET password_hash RETURNING id. -/
def upsertUser (db : DB) (username password_hash role : String) : DB × ℕ :=
  match db.users.find? fun u => u.username == username with
  | some u =>
      ({ db with users := db.users.map fun v =>
          if v.username == username then { v with password_hash := password_hash } else v }, u.id)
  | none =>
      let uid := db.next_user_id
      ({ db with
          users := db.users ++ [⟨uid, username, password_hash, role⟩]
          next_user_id := uid + 1 }, uid)

/-- The admins stage (db_manager.py 768-793): each admin is processed under
    its own try/except, so a malformed entry (missing username or password
    key) is caught and the loop continues.  Returns the updated database
    and the admin_ids mapping. -/
def processAdmins (phash : String → String) (db : DB) :
    List RawAdmin → DB × List (String × ℕ)
  | [] => (db, [])
  | a :: rest =>
      match a.username, a.password with
      | some un, some pw =>
          let r := upsertUser db un (phash pw) "admin"
          let out := processAdmins phash r.1 rest
          (out.1, (un, r.2) :: out.2)
      | _, _ => processAdmins phash db rest

/-- The groups stage (db_manager.py 799-812): the loop body has NO
    per-entity exception handler, so reading a missing key of a group
    record raises out of the stage (`none`); a creation failure reported by
    create_group itself just maps the group name to None in group_map. -/
def processGroups (db : DB) : List RawGroup → Option (DB × List (String × Option ℕ))
  | [] => some (db, [])
  | g :: rest =>
      match g.name, g.description, g.created_by with
      | some n, some d, some cb =>
          let r := create_group db n d cb g.campaign_start_date
          match processGroups r.1 rest with
          | some (db', gm) => some (db', (n, r.2) :: gm)
          | none => none
      | _, _, _ => none

/-- db_manager.py 845-857: `group_map.get(name)` followed by the Python
    truthiness test `if group_id:` (None and 0 are falsy). -/
def lookupGroupId (gm : List (String × Option ℕ)) (gname : String) : Option ℕ :=
  match gm.find? fun p => p.1 == gname with
  | some (_, some gid) => if gid == 0 then none else some gid
  | _ => none

/-- db_manager.py 848-854: INSERT INTO user_groups ... ON CONFLICT DO
    NOTHING. -/
def addMembership (db : DB) (user_id group_id : ℕ) : DB :=
  if (user_id, group_id) ∈ db.user_groups then db
  else { db with user_groups := db.user_groups ++ [(user_id, group_id)] }

/-- The participants stage (db_manager.py 815-859): each participant is
    processed under its own try/except; unknown group names are skipped
    with a warning.  Returns the updated database and participant_ids. -/
def processParticipants (phash : String → String) (db : DB)
    (gm : List (String × Option ℕ)) :
    List RawParticipant → DB × List (String × ℕ)
  | [] => (db, [])
  | p :: rest =>
      match p.username, p.password with
      | some un, some pw =>
          let r := upsertUser db un (phash pw) "participant"
          let db2 := p.groups.foldl (fun d gname =>
            match lookupGroupId gm gname with
            | some gid => addMembership d r.2 gid
            | none => d) r.1
          let out := processParticipants phash db2 gm rest
          (out.1, (un, r.2) :: out.2)
      | _, _ => processParticipants phash db gm rest

/-- db_manager.py 270-294: insert the questionnaire rows (upsert keyed by
    (user_id, date)); the function catches its own errors and returns a
    boolean, and in this model the engine never raises. -/
def upsertQRow (tbl : List QRow) (row : QRow) : List QRow :=
  if tbl.any fun t => t.user_id == row.user_id && t.date == row.date then
    tbl.map fun t =>
      if t.user_id == row.user_id && t.date == row.date then
        { t with perceived_sleep_quality := row.perceived_sleep_quality,
                 fatigue_level := row.fatigue_level,
                 motivation_level := row.motivation_level }
      else t
  else tbl ++ [row]

def insert_questionnaire_data (db : DB) (data : List QRow) : DB × Bool :=
  ({ db with questionnaire_data := data.foldl upsertQRow db.questionnaire_data }, true)

/-- The generated-data stage (db_manager.py 862-905): each participant is
    processed under its own try/except (the raising `participant['username']`
    access included); participants without an id or with generate_data off
    are skipped; otherwise the health, questionnaire and anomaly data for
    the window ending `today` are generated and saved. -/
def processGenData (db : DB) (pids : List (String × ℕ)) (today : ℕ)
    (genv : ℕ → GenRand) : List RawParticipant → DB
  | [] => db
  | p :: rest =>
      let db' :=
        match p.username with
        | none => db
        | some un =>
            match (pids.find? fun q => q.1 == un).map fun q => q.2 with
            | some pid =>
                if pid ≠ 0 ∧ p.generate_data then
                  let start_date := today - p.data_days
                  let g := genv pid
                  let r1 := import_mock_data db pid start_date today false g.base g.day
                  let qd := generate_questionnaire_data pid start_date today g.q
                  let db2 := if qd.isEmpty then r1.1 else (insert_questionnaire_data r1.1 qd).1
                  let ad := generate_mock_anomaly_data g.anom start_date today 5
                  if ad.isEmpty then db2
                  else { db2 with anomaly_scores :=
                    (save_anomaly_scores db2.anomaly_scores pid ad fun _ => false).1 }
                else db
            | none => db
      processGenData db' pids today genv rest

/-- db_manager.py 751-912: the seeding orchestrator.  Config guards first
    (missing sections return before any write); then the four stages in
    order.  An exception escaping a stage (only possible in the groups
    stage, which has no per-entity handler) is caught by the run-level
    except, which reports it and returns False. -/
def seed_database (db : DB) (cfg : SeedConfig) (phash : String → String) (today : ℕ)
    (genv : ℕ → GenRand) : DB × Bool :=
  match cfg.admins, cfg.groups, cfg.participants with
  | some admins, some groups, some participants =>
      let r1 := processAdmins phash db admins
      match processGroups r1.1 groups with
      | none => (r1.1, false)
      | some (db2, gm) =>
          let r2 := processParticipants phash db2 gm participants
          (processGenData r2.1 r2.2 today genv participants, true)
  | _, _, _ => (db, false)

/-! ### The RNG seed (db_manager.py 350 and 469) -/

/-- db_manager.py 350 / 469: `random.seed(hash(str(user_id)) % 2**32)`.
    `pyStrHash` is the process's string-hash function: CPython salts string
    hashing per process (PYTHONHASHSEED), so the hash of `str(user_id)` is a
    function of both the identifier and the process's salt.  Python's `%`
    on a possibly negative int is `Int.emod`. -/
def mockDataSeed (pyStrHash : String → ℤ) (user_id : ℤ) : ℤ :=
  (pyStrHash (toString user_id)).emod (2 ^ 32)

/-- A group record with a missing required key: reading it raises KeyError
    in the source (db_manager.py 803-805). -/
def malformedGroup (g : RawGroup) : Prop :=
  g.name = none ∨ g.description = none ∨ g.created_by = none

/-! ### Concrete inputs used by the counterexamples and witnesses -/

def mWit : Metrics := ⟨60, 160, 7, 50, 8000, none, none⟩

def wBase : UserBaseRand := ⟨60, 160, 7, 50, 8000⟩

def wDay : DayRand := ⟨0, 0, 0, 0, 0, 0, 0, 0, 0, 0, 100, 1/2, 1/4, 1/10⟩

/-- A database holding one participant (id 1) whose health rows for the
    ordinal dates 2 and 3 are already present. -/
def wDB : DB :=
  { users := [⟨1, "alice", "h", "participant"⟩]
    groups := []
    user_groups := []
    health_metrics := [⟨1, 1, 2, mWit, 2400⟩, ⟨2, 1, 3, mWit, 2400⟩]
    heart_rate_zones := []
    movement_speeds := []
    questionnaire_data := []
    anomaly_scores := []
    next_user_id := 2
    next_group_id := 1
    next_health_id := 3 }

/-- A day whose five Gaussian zone draws are exactly the negatives of the
    base percentages, so every clamped zone value is 0. -/
def c2Day : DayRand := ⟨0, 0, 0, 0, 0, -30, -25, -20, -15, -10, 100, 1/2, 1/4, 1/10⟩

/-- An anomaly-draw environment whose single designated spike is day 0,
    slot 1, and whose `random.choice` draw picks the fourth vocabulary
    entry, `None`. -/
def c4Rand : AnomalyRand :=
  { base_anomaly_level := 1/5
    morning_factor := 1
    afternoon_factor := 1
    evening_factor := 1
    night_factor := 1
    anomaly_days := [0]
    anomaly_times := [1]
    noise := fun _ _ => 0
    spike_boost := fun _ _ => 1/2
    spike_choice := fun _ _ => 3 }

/-- A well-behaved anomaly-draw environment with no spike days. -/
def c4WRand : AnomalyRand :=
  { base_anomaly_level := 1/5
    morning_factor := 1
    afternoon_factor := 1
    evening_factor := 1
    night_factor := 1
    anomaly_days := []
    anomaly_times := []
    noise := fun _ _ => 0
    spike_boost := fun _ _ => 1/2
    spike_choice := fun _ _ => 0 }

/-- 1001 anomaly records: two batches (offsets 0 and 1000). -/
def c6Data : List AnomalyRecord := (List.range 1001).map fun i => ⟨i, 0, 0, none⟩

/-- The database raises on the second batch (offset 1000) only. -/
def c6Fails : ℕ → Bool := fun i => i == 1000

def c6WRecord : AnomalyRecord := ⟨5, 0, 1/2, none⟩

/-- A database with one admin and one existing group named "g". -/
def c8DB : DB :=
  { users := [⟨1, "admin", "h", "admin"⟩]
    groups := [⟨5, "g", "old", 1, none⟩]
    user_groups := []
    health_metrics := []
    heart_rate_zones := []
    movement_speeds := []
    questionnaire_data := []
    anomaly_scores := []
    next_user_id := 2
    next_group_id := 6
    next_health_id := 1 }

def cQRand : QRand :=
  ⟨70, 40, 70, (fun _ => false), (fun _ => 0), (fun _ => 0), (fun _ => 0)⟩

def cGen : GenRand := ⟨wBase, (fun _ => wDay), cQRand, c4WRand⟩

def emptyDB : DB := ⟨[], [], [], [], [], [], [], [], 1, 1, 1⟩

/-- A configuration whose groups list starts with a malformed record
    (missing name key) followed by a well-formed group, and whose
    participants list holds one well-formed participant. -/
def c9CfgBad : SeedConfig :=
  ⟨some [], some [⟨none, some "d", some "a", none⟩, ⟨some "g2", some "d2", some "a", none⟩],
    some [⟨some "p", some "pw", [], true, 60⟩]⟩

/-! ## Theorems -/

/-- For a five-element noise list with positive clamped sum, the
    renormalised zone shares stored by `zonesOf` sum to exactly 100. -/
theorem zonesOf_sum (n1 n2 n3 n4 n5 : ℚ)
    (hpos : 0 < (zoneValuesRaw [n1, n2, n3, n4, n5]).sum) :
    (zonesOf [n1, n2, n3, n4, n5]).1 + (zonesOf [n1, n2, n3, n4, n5]).2.1 +
      (zonesOf [n1, n2, n3, n4, n5]).2.2.1 + (zonesOf [n1, n2, n3, n4, n5]).2.2.2.1 +
      (zonesOf [n1, n2, n3, n4, n5]).2.2.2.2 = 100 := by
  have hraw : zoneValuesRaw [n1, n2, n3, n4, n5] =
      [max 0 (min 100 (30 + n1)), max 0 (min 100 (25 + n2)), max 0 (min 100 (20 + n3)),
        max 0 (min 100 (15 + n4)), max 0 (min 100 (10 + n5))] := by
    simp [zoneValuesRaw, basePercentages]
  rw [hraw] at hpos
  simp only [List.sum_cons, List.sum_nil, add_zero] at hpos
  simp only [zonesOf, zoneValuesNorm, hraw, List.sum_cons, List.sum_nil, add_zero]
  rw [if_pos hpos]
  simp only [List.map_cons, List.map_nil, List.getD_cons_zero, List.getD_cons_succ]
  have hne : max 0 (min 100 (30 + n1)) + (max 0 (min 100 (25 + n2)) +
      (max 0 (min 100 (20 + n3)) + (max 0 (min 100 (15 + n4)) +
        max 0 (min 100 (10 + n5))))) ≠ 0 := ne_of_gt hpos
  field_simp
  ring

/-- C2 (counterexample): the claim "the five shares always sum to 100 within
    0.01 after perturbation, clamping and renormalisation" fails on the
    record generated from the Gaussian draws (-30, -25, -20, -15, -10):
    every clamped zone value is 0, the `if zone_sum > 0` guard skips the
    renormalisation, and the stored shares sum to 0. -/
theorem C2_counterexample :
    (dayMetrics wBase c2Day 1).zones = some (0, 0, 0, 0, 0) ∧
      ¬ |(0:ℚ) + 0 + 0 + 0 + 0 - 100| ≤ 1/100 := by
  constructor
  · norm_num [dayMetrics, c2Day, zonesOf, zoneValuesNorm, zoneValuesRaw, basePercentages]
  · norm_num

/-- C2 (amended): for every daily health-metric record produced by the
    daily generator whose five perturbed-and-clamped zone values have
    positive sum, the stored zone shares (very_light, light, moderate,
    intense, beast_mode) sum to exactly 100 — and hence within the 0.01
    tolerance.  If all five clamp to 0 the renormalisation is skipped and
    the shares remain 0 (the counterexample above). -/
theorem C2_zone_sum_amended (base : UserBaseRand) (d : DayRand) (date : ℕ)
    (hpos : 0 < (zoneValuesRaw [d.zNoise1, d.zNoise2, d.zNoise3, d.zNoise4, d.zNoise5]).sum) :
    ∃ z, (dayMetrics base d date).zones = some z ∧
      z.1 + z.2.1 + z.2.2.1 + z.2.2.2.1 + z.2.2.2.2 = 100 := by
  refine ⟨zonesOf [d.zNoise1, d.zNoise2, d.zNoise3, d.zNoise4, d.zNoise5], rfl, ?_⟩
  exact zonesOf_sum d.zNoise1 d.zNoise2 d.zNoise3 d.zNoise4 d.zNoise5 hpos

/-- C2 witness: the amended theorem applied at the all-zero noise day. -/
theorem C2_zone_sum_amended_witness :
    ∃ z, (dayMetrics wBase wDay 1).zones = some z ∧
      z.1 + z.2.1 + z.2.2.1 + z.2.2.2.1 + z.2.2.2.2 = 100 :=
  C2_zone_sum_amended wBase wDay 1
    (by norm_num [zoneValuesRaw, basePercentages, wDay])

/-- The four minute counts produced by `movementMinutes` are non-negative
    and sum to the sampled budget up to the 4-way truncation deficit. -/
theorem movementMinutes_spec (w f j : ℚ) (n : ℕ)
    (hw1 : 2/5 ≤ w) (hw2 : w ≤ 7/10) (hf1 : 3/20 ≤ f) (hf2 : f ≤ 7/20)
    (hj1 : 1/20 ≤ j) (hj2 : j ≤ 1/4) :
    0 ≤ (movementMinutes w f j n).walking_minutes ∧
    0 ≤ (movementMinutes w f j n).walking_fast_minutes ∧
    0 ≤ (movementMinutes w f j n).jogging_minutes ∧
    0 ≤ (movementMinutes w f j n).running_minutes ∧
    (n : ℤ) - 3 ≤ (movementMinutes w f j n).walking_minutes +
      (movementMinutes w f j n).walking_fast_minutes +
      (movementMinutes w f j n).jogging_minutes +
      (movementMinutes w f j n).running_minutes ∧
    (movementMinutes w f j n).walking_minutes +
      (movementMinutes w f j n).walking_fast_minutes +
      (movementMinutes w f j n).jogging_minutes +
      (movementMinutes w f j n).running_minutes ≤ (n : ℤ) := by
  have hr1 : (1:ℚ)/100 ≤ max (1/100) (1 - w - f - j) := le_max_left _ _
  have hw0 : (0:ℚ) ≤ w := by linarith
  have hf0 : (0:ℚ) ≤ f := by linarith
  have hj0 : (0:ℚ) ≤ j := by linarith
  have hT : (0:ℚ) < w + f + j + max (1/100) (1 - w - f - j) := by linarith
  have hTne : w + f + j + max (1/100) (1 - w - f - j) ≠ 0 := ne_of_gt hT
  have hn0 : (0:ℚ) ≤ (n : ℚ) := Nat.cast_nonneg n
  have hx1 : (0:ℚ) ≤ (n : ℚ) * (w / (w + f + j + max (1/100) (1 - w - f - j))) :=
    mul_nonneg hn0 (div_nonneg hw0 hT.le)
  have hx2 : (0:ℚ) ≤ (n : ℚ) * (f / (w + f + j + max (1/100) (1 - w - f - j))) :=
    mul_nonneg hn0 (div_nonneg hf0 hT.le)
  have hx3 : (0:ℚ) ≤ (n : ℚ) * (j / (w + f + j + max (1/100) (1 - w - f - j))) :=
    mul_nonneg hn0 (div_nonneg hj0 hT.le)
  have hx4 : (0:ℚ) ≤ (n : ℚ) *
      (max (1/100) (1 - w - f - j) / (w + f + j + max (1/100) (1 - w - f - j))) :=
    mul_nonneg hn0 (div_nonneg (by linarith) hT.le)
  have hsum : (n : ℚ) * (w / (w + f + j + max (1/100) (1 - w - f - j))) +
      (n : ℚ) * (f / (w + f + j + max (1/100) (1 - w - f - j))) +
      (n : ℚ) * (j / (w + f + j + max (1/100) (1 - w - f - j))) +
      (n : ℚ) * (max (1/100) (1 - w - f - j) /
        (w + f + j + max (1/100) (1 - w - f - j))) = (n : ℚ) := by
    field_simp
    ring
  simp only [movementMinutes, pyInt, if_pos hx1, if_pos hx2, if_pos hx3, if_pos hx4]
  refine ⟨Int.floor_nonneg.mpr hx1, Int.floor_nonneg.mpr hx2, Int.floor_nonneg.mpr hx3,
    Int.floor_nonneg.mpr hx4, ?_, ?_⟩
  · have l1 := Int.sub_one_lt_floor ((n : ℚ) * (w / (w + f + j + max (1/100) (1 - w - f - j))))
    have l2 := Int.sub_one_lt_floor ((n : ℚ) * (f / (w + f + j + max (1/100) (1 - w - f - j))))
    have l3 := Int.sub_one_lt_floor ((n : ℚ) * (j / (w + f + j + max (1/100) (1 - w - f - j))))
    have l4 := Int.sub_one_lt_floor ((n : ℚ) *
      (max (1/100) (1 - w - f - j) / (w + f + j + max (1/100) (1 - w - f - j))))
    have hq : (n : ℚ) - 4 <
        (⌊(n : ℚ) * (w / (w + f + j + max (1/100) (1 - w - f - j)))⌋ : ℚ) +
        (⌊(n : ℚ) * (f / (w + f + j + max (1/100) (1 - w - f - j)))⌋ : ℚ) +
        (⌊(n : ℚ) * (j / (w + f + j + max (1/100) (1 - w - f - j)))⌋ : ℚ) +
        (⌊(n : ℚ) * (max (1/100) (1 - w - f - j) /
          (w + f + j + max (1/100) (1 - w - f - j)))⌋ : ℚ) := by linarith
    have hz : (n : ℤ) - 4 <
        ⌊(n : ℚ) * (w / (w + f + j + max (1/100) (1 - w - f - j)))⌋ +
        ⌊(n : ℚ) * (f / (w + f + j + max (1/100) (1 - w - f - j)))⌋ +
        ⌊(n : ℚ) * (j / (w + f + j + max (1/100) (1 - w - f - j)))⌋ +
        ⌊(n : ℚ) * (max (1/100) (1 - w - f - j) /
          (w + f + j + max (1/100) (1 - w - f - j)))⌋ := by exact_mod_cast hq
    omega
  · have l1 := Int.floor_le ((n : ℚ) * (w / (w + f + j + max (1/100) (1 - w - f - j))))
    have l2 := Int.floor_le ((n : ℚ) * (f / (w + f + j + max (1/100) (1 - w - f - j))))
    have l3 := Int.floor_le ((n : ℚ) * (j / (w + f + j + max (1/100) (1 - w - f - j))))
    have l4 := Int.floor_le ((n : ℚ) *
      (max (1/100) (1 - w - f - j) / (w + f + j + max (1/100) (1 - w - f - j))))
    have hq : (⌊(n : ℚ) * (w / (w + f + j + max (1/100) (1 - w - f - j)))⌋ : ℚ) +

        (⌊(n : ℚ) * (f / (w + f + j + max (1/100) (1 - w - f - j)))⌋ : ℚ) +
        (⌊(n : ℚ) * (j / (w + f + j + max (1/100) (1 - w - f - j)))⌋ : ℚ) +
        (⌊(n : ℚ) * (max (1/100) (1 - w - f - j) /
          (w + f + j + max (1/100) (1 - w - f - j)))⌋ : ℚ) ≤ (n : ℚ) := by linarith
    exact_mod_cast hq

/-- C5: for every daily health-metric record produced by the daily
    generator, given draws in the ranges the source samples them from
    (walking ∈ [0.4,0.7], fast-walking ∈ [0.15,0.35], jogging ∈ [0.05,0.25],
    budget ∈ [30,180]), the four movement-minute values are each ≥ 0 and
    their sum equals the day's sampled active-minutes budget within an
    integer-truncation deficit of at most 3. -/
theorem C5_movement_minutes (base : UserBaseRand) (d : DayRand) (date : ℕ)
    (hw1 : 2/5 ≤ d.wPct) (hw2 : d.wPct ≤ 7/10)
    (hf1 : 3/20 ≤ d.fPct) (hf2 : d.fPct ≤ 7/20)
    (hj1 : 1/20 ≤ d.jPct) (hj2 : d.jPct ≤ 1/4)
    (hb1 : 30 ≤ d.totalActive) (hb2 : d.totalActive ≤ 180) :
    ∃ mv, (dayMetrics base d date).movement = some mv ∧
      0 ≤ mv.walking_minutes ∧ 0 ≤ mv.walking_fast_minutes ∧
      0 ≤ mv.jogging_minutes ∧ 0 ≤ mv.running_minutes ∧
      (d.totalActive : ℤ) - 3 ≤ mv.walking_minutes + mv.walking_fast_minutes +
        mv.jogging_minutes + mv.running_minutes ∧
      mv.walking_minutes + mv.walking_fast_minutes +
        mv.jogging_minutes + mv.running_minutes ≤ (d.totalActive : ℤ) :=
  ⟨movementMinutes d.wPct d.fPct d.jPct d.totalActive, rfl,
    movementMinutes_spec d.wPct d.fPct d.jPct d.totalActive hw1 hw2 hf1 hf2 hj1 hj2⟩

/-- C5 witness: the theorem applied at the concrete day `wDay`
    (proportions 1/2, 1/4, 1/10; budget 100). -/
theorem C5_movement_minutes_witness :
    ∃ mv, (dayMetrics wBase wDay 3).movement = some mv ∧
      0 ≤ mv.walking_minutes ∧ 0 ≤ mv.walking_fast_minutes ∧
      0 ≤ mv.jogging_minutes ∧ 0 ≤ mv.running_minutes ∧
      (wDay.totalActive : ℤ) - 3 ≤ mv.walking_minutes + mv.walking_fast_minutes +
        mv.jogging_minutes + mv.running_minutes ∧
      mv.walking_minutes + mv.walking_fast_minutes +
        mv.jogging_minutes + mv.running_minutes ≤ (wDay.totalActive : ℤ) :=
  C5_movement_minutes wBase wDay 3 (by norm_num [wDay]) (by norm_num [wDay])
    (by norm_num [wDay]) (by norm_num [wDay]) (by norm_num [wDay]) (by norm_num [wDay])
    (by norm_num [wDay]) (by norm_num [wDay])

theorem roundHalfEven_nonneg (x : ℚ) (h0 : 0 ≤ x) : 0 ≤ roundHalfEven x := by
  have hf0 : 0 ≤ ⌊x⌋ := Int.floor_nonneg.mpr h0
  simp only [roundHalfEven]
  split_ifs <;> omega

theorem roundHalfEven_le (x : ℚ) (n : ℤ) (h : x ≤ (n : ℚ)) : roundHalfEven x ≤ n := by
  have hfle : (⌊x⌋ : ℚ) ≤ x := Int.floor_le x
  have hfn : ⌊x⌋ ≤ n := by exact_mod_cast le_trans hfle h
  simp only [roundHalfEven]
  split_ifs with h1 h2 h3
  · exact hfn
  · have : (⌊x⌋ : ℚ) < (n : ℚ) := by linarith
    have : ⌊x⌋ < n := by exact_mod_cast this
    omega
  · exact hfn
  · have : (⌊x⌋ : ℚ) < (n : ℚ) := by linarith [not_lt.mp h1]
    have : ⌊x⌋ < n := by exact_mod_cast this
    omega

theorem pyRound4_bounds (x : ℚ) (h0 : 0 ≤ x) (h1 : x ≤ 1) :
    0 ≤ pyRound4 x ∧ pyRound4 x ≤ 1 := by
  have hy0 : 0 ≤ x * 10000 := by linarith
  have hy1 : x * 10000 ≤ ((10000 : ℤ) : ℚ) := by push_cast; linarith
  have hr0 := roundHalfEven_nonneg (x * 10000) hy0
  have hr1 := roundHalfEven_le (x * 10000) 10000 hy1
  constructor
  · exact div_nonneg (by exact_mod_cast hr0) (by norm_num)
  · rw [pyRound4, div_le_one (by norm_num)]
    exact_mod_cast hr1

/-- The score of every generated anomaly record lies in [0, 1], provided the
    spike boost draw is at least its sampled lower bound 0.3. -/
theorem anomalyRecord_score_bounds (r : AnomalyRand) (im date slot : ℕ)
    (hboost : 3/10 ≤ r.spike_boost date slot) :
    0 ≤ (anomalyRecord r im date slot).score ∧ (anomalyRecord r im date slot).score ≤ 1 := by
  simp only [anomalyRecord]
  set e := r.base_anomaly_level *
    (if 6 ≤ slot * im / 60 ∧ slot * im / 60 < 12 then r.morning_factor
     else if 12 ≤ slot * im / 60 ∧ slot * im / 60 < 18 then r.afternoon_factor
     else if 18 ≤ slot * im / 60 ∧ slot * im / 60 < 22 then r.evening_factor
     else r.night_factor) + r.noise date slot with he
  have hs0 : (0:ℚ) ≤ max 0 (min 1 e) := le_max_left 0 _
  have hs1 : max 0 (min 1 e) ≤ 1 := max_le (by norm_num) (min_le_left 1 e)
  split_ifs with hsp
  · have h0 : (0:ℚ) ≤ min 1 (max 0 (min 1 e) + r.spike_boost date slot) :=
      le_min (by norm_num) (by linarith)
    have h1 : min 1 (max 0 (min 1 e) + r.spike_boost date slot) ≤ 1 := min_le_left _ _
    exact pyRound4_bounds _ h0 h1
  · exact pyRound4_bounds _ hs0 hs1

/-- Non-spike (date, slot) pairs get no label. -/
theorem anomalyRecord_label_none (r : AnomalyRand) (im date slot : ℕ)
    (h : isSpike r date slot = false) :
    (anomalyRecord r im date slot).label = none := by
  simp [anomalyRecord, h]

/-- A labelled record can only arise at a spike position. -/
theorem anomalyRecord_label_isSome (r : AnomalyRand) (im date slot : ℕ)
    (h : (anomalyRecord r im date slot).label.isSome = true) :
    isSpike r date slot = true := by
  by_contra hc
  rw [anomalyRecord_label_none r im date slot (Bool.not_eq_true _ ▸ eq_false_of_ne_true hc)] at h
  simp at h

/-- Per-day labelled-record bound: at most one slot of a day can be a spike
    slot, and only on a designated anomaly day. -/
theorem countSpike_le (r : AnomalyRand) (im date n : ℕ) :
    (List.range n).countP (fun slot => (anomalyRecord r im date slot).label.isSome) ≤
      if date ∈ r.anomaly_days then 1 else 0 := by
  split_ifs with hd
  · have hmono : (List.range n).countP
        (fun slot => (anomalyRecord r im date slot).label.isSome) ≤
        (List.range n).countP
          (fun slot => slot == r.anomaly_times.getD (r.anomaly_days.indexOf date) 0) := by
      refine List.countP_mono_left fun slot _ h => ?_
      have hs := anomalyRecord_label_isSome r im date slot h
      simp only [isSpike, Bool.and_eq_true] at hs
      exact hs.2
    refine le_trans hmono ?_
    rw [← List.count_eq_countP]
    exact List.nodup_iff_count_le_one.mp (List.nodup_range n) _
  · rw [Nat.le_zero, List.countP_eq_zero]
    intro slot _ h
    have hs := anomalyRecord_label_isSome r im date slot h
    simp only [isSpike, Bool.and_eq_true, decide_eq_true_eq] at hs
    exact hd hs.1

/-- Sum of membership indicators over a duplicate-free list is bounded by
    the member list's length. -/
theorem sum_indicator_le (l A : List ℕ) (hnd : l.Nodup) :
    (l.map fun d => if d ∈ A then (1:ℕ) else 0).sum ≤ A.length := by
  have h1 : ∀ l' : List ℕ, (l'.map fun d => if d ∈ A then (1:ℕ) else 0).sum =
      l'.countP fun d => decide (d ∈ A) := by
    intro l'
    induction l' with
    | nil => simp
    | cons a t ih =>
        by_cases ha : a ∈ A <;>
          simp [List.countP_cons, ih, ha, Nat.add_comm]
  rw [h1 l, List.countP_eq_length_filter]
  have hsub : (l.filter fun d => decide (d ∈ A)) ⊆ A := by
    intro x hx
    simpa using (List.mem_filter.mp hx).2
  exact ((hnd.filter _).subperm hsub).length_le

/-- C4 (amended): in every generated anomaly run whose spike-boost draws
    respect their sampled lower bound 0.3, every record's score lies in
    [0, 1]; every labelled record sits at a designated spike position (a
    sampled anomaly day with its sampled slot); there are at most 3 spike
    positions per run (hence at most 3 labelled records); but a spike
    record's label is drawn from a vocabulary that includes None, so a
    designated spike slot may carry no label (the counterexample). -/
theorem C4_amended (r : AnomalyRand) (start_date end_date interval_minutes : ℕ)
    (hboost : ∀ date slot, 3/10 ≤ r.spike_boost date slot)
    (hlen : r.anomaly_days.length ≤ 3) :
    (∀ rec ∈ generate_mock_anomaly_data r start_date end_date interval_minutes,
      (0 ≤ rec.score ∧ rec.score ≤ 1) ∧
      (rec.label.isSome = true → ∃ date slot, isSpike r date slot = true ∧
        rec = anomalyRecord r interval_minutes date slot)) ∧
    (generate_mock_anomaly_data r start_date end_date interval_minutes).countP
      (fun rec => rec.label.isSome) ≤ 3 := by
  constructor
  · intro rec hrec
    simp only [generate_mock_anomaly_data, List.mem_flatMap, List.mem_map,
      List.mem_range] at hrec
    obtain ⟨date, _, slot, _, rfl⟩ := hrec
    exact ⟨anomalyRecord_score_bounds r _ date slot (hboost date slot),
      fun hl => ⟨date, slot, anomalyRecord_label_isSome r _ date slot hl, rfl⟩⟩
  · have hdates : ((List.range (end_date + 1 - start_date)).map (start_date + ·)).Nodup :=
      (List.nodup_range _).map (fun a b h => by omega)
    simp only [generate_mock_anomaly_data, List.countP_flatMap, List.countP_map,
      Function.comp_def]
    refine le_trans (List.sum_le_sum fun date _ =>
      countSpike_le r interval_minutes date (slotsPerDay interval_minutes)) ?_
    exact le_trans (sum_indicator_le _ r.anomaly_days hdates) hlen

/-- C4 (counterexample): (day 0, slot 1) is the designated spike position
    of the run `c4Rand` over a single day with two slots, yet the record
    generated there carries no label, because the spike-label vocabulary
    includes None — refuting "exactly the designated spike slots carry a
    non-none label". -/
theorem C4_counterexample :
    isSpike c4Rand 0 1 = true ∧
    (anomalyRecord c4Rand 720 0 1).label = none ∧
    anomalyRecord c4Rand 720 0 1 ∈ generate_mock_anomaly_data c4Rand 0 0 720 := by
  refine ⟨by decide, ?_, ?_⟩
  · have hs : isSpike c4Rand 0 1 = true := by decide
    simp only [anomalyRecord, hs, if_true]
    decide
  · simp [generate_mock_anomaly_data, slotsPerDay, List.range_succ]

/-- C4 witness: the amended theorem applied to the spike-free run
    `c4WRand` over one day of two slots. -/
theorem C4_amended_witness :
    (∀ rec ∈ generate_mock_anomaly_data c4WRand 0 0 720,
      (0 ≤ rec.score ∧ rec.score ≤ 1) ∧
      (rec.label.isSome = true → ∃ date slot, isSpike c4WRand date slot = true ∧
        rec = anomalyRecord c4WRand 720 date slot)) ∧
    (generate_mock_anomaly_data c4WRand 0 0 720).countP
      (fun rec => rec.label.isSome) ≤ 3 :=
  C4_amended c4WRand 0 0 720 (fun _ _ => by norm_num [c4WRand]) (by decide)

/-- With a valid (positive) user id, `save_health_metrics` always reports
    success in this model. -/
theorem save_health_metrics_ok (db : DB) (user_id date : ℕ) (m : Metrics)
    (h : user_id ≠ 0) : (save_health_metrics db user_id date m).2 = true := by
  rw [save_health_metrics]
  cases hf : db.health_metrics.find? fun r => r.user_id == user_id && r.date == date <;>
    simp [h, hf]

/-- The child upserts leave the health_metrics table untouched. -/
theorem upsertChildren_health (db : DB) (hid : ℕ) (m : Metrics) :
    (upsertChildren db hid m).health_metrics = db.health_metrics := by
  rw [upsertChildren]
  rcases m.zones with _ | ⟨⟨z1, z2, z3, z4, z5⟩⟩ <;> rcases m.movement with _ | mv <;>
    dsimp only <;> split_ifs <;> rfl

/-- Saving onto an existing (user, date) key updates the row in place: the
    key column of the health_metrics table is unchanged. -/
theorem save_health_metrics_keys (db : DB) (user_id date : ℕ) (m : Metrics)
    (h : user_id ≠ 0) (hmem : ∃ r ∈ db.health_metrics, r.user_id = user_id ∧ r.date = date) :
    (save_health_metrics db user_id date m).1.health_metrics.map
        (fun r => (r.user_id, r.date)) =
      db.health_metrics.map fun r => (r.user_id, r.date) := by
  have hsome : (db.health_metrics.find? fun r =>
      r.user_id == user_id && r.date == date).isSome = true := by
    rw [List.find?_isSome]
    obtain ⟨r, hr, h1, h2⟩ := hmem
    exact ⟨r, hr, by simp [h1, h2]⟩
  obtain ⟨r, hr⟩ := Option.isSome_iff_exists.mp hsome
  rw [save_health_metrics, if_neg h, hr]
  dsimp only
  rw [upsertChildren_health]
  dsimp only
  rw [List.map_map]
  refine List.map_congr_left fun v _ => ?_
  by_cases hv : (v.user_id == user_id && v.date == date) = true <;>
    simp [Function.comp, hv]

/-- A fold of the import loop over dates that are all in `skip_dates` does
    nothing. -/
theorem foldl_importStep_skipped (user_id : ℕ) (base : UserBaseRand)
    (dayRand : ℕ → DayRand) (skip_dates : List ℕ) :
    ∀ (l : List ℕ) (acc : DB × ℕ × List ℕ), (∀ d ∈ l, d ∈ skip_dates) →
      l.foldl (importStep user_id base dayRand skip_dates) acc = acc := by
  intro l
  induction l with
  | nil => intro acc _; rfl
  | cons d t ih =>
      intro acc hmem
      rw [List.foldl_cons, importStep, if_pos (hmem d (List.mem_cons_self d t))]
      exact ih acc fun x hx => hmem x (List.mem_cons_of_mem d hx)

/-- The success count of the import loop advances in lockstep with the
    length of the write trace. -/
theorem foldl_importStep_count (user_id : ℕ) (base : UserBaseRand)
    (dayRand : ℕ → DayRand) (skip_dates : List ℕ) :
    ∀ (l : List ℕ) (acc : DB × ℕ × List ℕ),
      (l.foldl (importStep user_id base dayRand skip_dates) acc).2.1 + acc.2.2.length =
        acc.2.1 + (l.foldl (importStep user_id base dayRand skip_dates) acc).2.2.length := by
  intro l
  induction l with
  | nil => intro acc; rfl
  | cons d t ih =>
      intro acc
      rw [List.foldl_cons]
      have hstep : (importStep user_id base dayRand skip_dates acc d).2.1 + acc.2.2.length =
          acc.2.1 + (importStep user_id base dayRand skip_dates acc d).2.2.length := by
        rw [importStep]
        dsimp only
        split_ifs <;> simp <;> omega
      have := ih (importStep user_id base dayRand skip_dates acc d)
      omega

/-- With an empty skip list and a valid user, the import loop writes every
    date in order and leaves the set of (user, date) keys unchanged when
    every date is already present. -/
theorem foldl_importStep_overwrite (user_id : ℕ) (base : UserBaseRand)
    (dayRand : ℕ → DayRand) (huid : user_id ≠ 0) :
    ∀ (l : List ℕ) (acc : DB × ℕ × List ℕ),
      (∀ d ∈ l, ∃ r ∈ acc.1.health_metrics, r.user_id = user_id ∧ r.date = d) →
      (l.foldl (importStep user_id base dayRand []) acc).2.2 = acc.2.2 ++ l ∧
      (l.foldl (importStep user_id base dayRand []) acc).1.health_metrics.map
          (fun r => (r.user_id, r.date)) =
        acc.1.health_metrics.map fun r => (r.user_id, r.date) := by
  intro l
  induction l with
  | nil => intro acc _; simp
  | cons d t ih =>
      intro acc hmem
      have hd := hmem d (List.mem_cons_self d t)
      have hkeys := save_health_metrics_keys acc.1 user_id d
        (dayMetrics base (dayRand d) d) huid hd
      have hok := save_health_metrics_ok acc.1 user_id d
        (dayMetrics base (dayRand d) d) huid
      rw [List.foldl_cons, importStep]
      rw [if_neg (List.not_mem_nil d)]
      dsimp only
      rw [if_pos hok]
      have hmem' : ∀ x ∈ t, ∃ r ∈ (save_health_metrics acc.1 user_id d
          (dayMetrics base (dayRand d) d)).1.health_metrics,
          r.user_id = user_id ∧ r.date = x := by
        intro x hx
        obtain ⟨r, hr, h1, h2⟩ := hmem x (List.mem_cons_of_mem d hx)
        have : (user_id, x) ∈ (save_health_metrics acc.1 user_id d
            (dayMetrics base (dayRand d) d)).1.health_metrics.map
              fun r => (r.user_id, r.date) := by
          rw [hkeys]
          exact List.mem_map.mpr ⟨r, hr, by rw [h1, h2]⟩
        obtain ⟨r', hr', he⟩ := List.mem_map.mp this
        exact ⟨r', hr', by
          have h3 := congrArg Prod.fst he
          have h4 := congrArg Prod.snd he
          exact ⟨h3, h4⟩⟩
      obtain ⟨ih1, ih2⟩ := ih ((save_health_metrics acc.1 user_id d
          (dayMetrics base (dayRand d) d)).1, acc.2.1 + 1, acc.2.2 ++ [d]) hmem'
      refine ⟨?_, ?_⟩
      · rw [ih1]; simp
      · rw [ih2]; exact hkeys

/-- A skip-policy run over a range whose every date is already present
    writes nothing, reports failure, and leaves the database unchanged. -/
theorem import_mock_data_skip_all (db : DB) (user_id start_date end_date : ℕ)
    (base : UserBaseRand) (dayRand : ℕ → DayRand)
    (hu : (db.users.any fun u => u.id == user_id) = true) (hs : start_date ≤ end_date)
    (hall : ∀ d, start_date ≤ d → d ≤ end_date →
      ∃ r ∈ db.health_metrics, r.user_id = user_id ∧ r.date = d) :
    (import_mock_data db user_id start_date end_date false base dayRand) = (db, false, []) := by
  rw [import_mock_data]
  simp only [hu, Bool.not_true, Bool.false_eq_true, if_false, if_neg (not_lt.mpr hs)]
  have hskip : ∀ d ∈ (List.range (end_date - start_date + 1)).map (start_date + ·),
      d ∈ (db.health_metrics.filter fun r =>
        r.user_id == user_id && (decide (start_date ≤ r.date) && decide (r.date ≤ end_date))).map
          fun r => r.date := by
    intro d hd
    obtain ⟨i, hi, rfl⟩ := List.mem_map.mp hd
    rw [List.mem_range] at hi
    obtain ⟨r, hr, h1, h2⟩ := hall (start_date + i) (by omega) (by omega)
    refine List.mem_map.mpr ⟨r, List.mem_filter.mpr ⟨hr, ?_⟩, h2⟩
    simp only [h1, h2, beq_self_eq_true, Bool.true_and, Bool.and_eq_true, decide_eq_true_eq]
    omega
  rw [foldl_importStep_skipped user_id base dayRand _ _ _ hskip]
  rfl

/-- The daily generator's returned flag is true exactly when its write
    trace is non-empty. -/
theorem import_mock_data_success_iff (db : DB) (user_id start_date end_date : ℕ)
    (overwrite : Bool) (base : UserBaseRand) (dayRand : ℕ → DayRand) :
    ((import_mock_data db user_id start_date end_date overwrite base dayRand).2.1 = true ↔
      (import_mock_data db user_id start_date end_date overwrite base dayRand).2.2 ≠ []) := by
  have key : ∀ (sk l : List ℕ),
      (decide (0 < (l.foldl (importStep user_id base dayRand sk) (db, 0, [])).2.1) = true ↔
        (l.foldl (importStep user_id base dayRand sk) (db, 0, [])).2.2 ≠ []) := by
    intro sk l
    have hc := foldl_importStep_count user_id base dayRand sk l (db, 0, [])
    simp only [List.length_nil, Nat.add_zero, Nat.zero_add] at hc
    rw [decide_eq_true_iff, hc]
    constructor
    · intro h hnil
      rw [hnil] at h
      simp at h
    · intro h
      have := List.length_pos.mpr h
      omega
  rw [import_mock_data]
  cases hany : db.users.any fun u => u.id == user_id with
  | false => simp
  | true =>
      dsimp only
      by_cases h2 : end_date < start_date
      · rw [if_pos h2]
        simp
      · rw [if_neg h2]
        exact key _ _

/-- C3: after a completed first run (every date of the inclusive range
    already present for the user), regenerating with skip policy performs
    zero database writes — the database is returned unchanged, the write
    trace is empty and the flag reports no new days — while regenerating
    with overwrite policy writes exactly the dates of the range, as updates
    in place (the (user, date) key column is unchanged). -/
theorem C3_skip_idempotent_overwrite_exact (db : DB) (user_id start_date end_date : ℕ)
    (base : UserBaseRand) (dayRand : ℕ → DayRand)
    (hu : (db.users.any fun u => u.id == user_id) = true) (huid : user_id ≠ 0)
    (hs : start_date ≤ end_date)
    (hall : ∀ d, start_date ≤ d → d ≤ end_date →
      ∃ r ∈ db.health_metrics, r.user_id = user_id ∧ r.date = d) :
    (import_mock_data db user_id start_date end_date false base dayRand) = (db, false, []) ∧
    (import_mock_data db user_id start_date end_date true base dayRand).2.2 =
      (List.range (end_date - start_date + 1)).map (start_date + ·) ∧
    (import_mock_data db user_id start_date end_date true base dayRand).1.health_metrics.map
        (fun r => (r.user_id, r.date)) =
      db.health_metrics.map fun r => (r.user_id, r.date) := by
  refine ⟨import_mock_data_skip_all db user_id start_date end_date base dayRand hu hs hall,
    ?_, ?_⟩ <;>
  · rw [import_mock_data]
    simp only [hu, Bool.not_true, Bool.false_eq_true, if_false, if_neg (not_lt.mpr hs),
      if_true]
    have hmem : ∀ d ∈ (List.range (end_date - start_date + 1)).map (start_date + ·),
        ∃ r ∈ (db, 0, ([] : List ℕ)).1.health_metrics,
          r.user_id = user_id ∧ r.date = d := by
      intro d hd
      obtain ⟨i, hi, rfl⟩ := List.mem_map.mp hd
      rw [List.mem_range] at hi
      exact hall (start_date + i) (by omega) (by omega)
    have h := foldl_importStep_overwrite user_id base dayRand huid
      ((List.range (end_date - start_date + 1)).map (start_date + ·)) (db, 0, []) hmem
    simp only [List.nil_append] at h
    first
      | exact h.1
      | exact h.2

/-- C7: the daily generator returns failure with no database writes when
    its precondition fails — the owning user does not exist, or the start
    date is after the end date. -/
theorem C7_precondition_failure_no_writes (db : DB) (user_id start_date end_date : ℕ)
    (overwrite : Bool) (base : UserBaseRand) (dayRand : ℕ → DayRand)
    (h : (db.users.any fun u => u.id == user_id) = false ∨ end_date < start_date) :
    (import_mock_data db user_id start_date end_date overwrite base dayRand) =
      (db, false, []) := by
  rw [import_mock_data]
  rcases h with h | h
  · rw [h]
    rfl
  · cases hany : db.users.any fun u => u.id == user_id
    · rfl
    · dsimp only
      rw [if_pos h]
      rfl

/-- C10: the daily generator reports overall success exactly when at least
    one day was newly written in the requested range; in particular a
    skip-policy run in which every date already exists returns failure even
    though nothing went wrong and the database is unchanged. -/
theorem C10_success_iff_new_writes (db : DB) (user_id start_date end_date : ℕ)
    (overwrite : Bool) (base : UserBaseRand) (dayRand : ℕ → DayRand) :
    ((import_mock_data db user_id start_date end_date overwrite base dayRand).2.1 = true ↔
      (import_mock_data db user_id start_date end_date overwrite base dayRand).2.2 ≠ []) ∧
    ((db.users.any fun u => u.id == user_id) = true → start_date ≤ end_date →
      (∀ d, start_date ≤ d → d ≤ end_date →
        ∃ r ∈ db.health_metrics, r.user_id = user_id ∧ r.date = d) →
      overwrite = false →
      (import_mock_data db user_id start_date end_date overwrite base dayRand) =
        (db, false, [])) :=
  ⟨import_mock_data_success_iff db user_id start_date end_date overwrite base dayRand,
    fun hu hs hall how => how ▸
      (import_mock_data_skip_all db user_id start_date end_date base dayRand hu hs hall)⟩

/-- C3 witness: the theorem applied to `wDB` (dates 2 and 3 present for
    user 1) over the range 2..3. -/
theorem C3_witness :
    (import_mock_data wDB 1 2 3 false wBase (fun _ => wDay)) = (wDB, false, []) ∧
    (import_mock_data wDB 1 2 3 true wBase (fun _ => wDay)).2.2 =
      (List.range (3 - 2 + 1)).map (2 + ·) ∧
    (import_mock_data wDB 1 2 3 true wBase (fun _ => wDay)).1.health_metrics.map
        (fun r => (r.user_id, r.date)) =
      wDB.health_metrics.map fun r => (r.user_id, r.date) :=
  C3_skip_idempotent_overwrite_exact wDB 1 2 3 wBase (fun _ => wDay) (by decide)
    (by decide) (by decide)
    (by
      intro d h1 h2
      interval_cases d
      · exact ⟨⟨1, 1, 2, mWit, 2400⟩, by simp [wDB], rfl, rfl⟩
      · exact ⟨⟨2, 1, 3, mWit, 2400⟩, by simp [wDB], rfl, rfl⟩)

/-- C7 witness: the theorem applied to `wDB` with start date 5 after end
    date 3. -/
theorem C7_witness :
    (import_mock_data wDB 1 5 3 false wBase (fun _ => wDay)) = (wDB, false, []) :=
  C7_precondition_failure_no_writes wDB 1 5 3 false wBase (fun _ => wDay)
    (Or.inr (by decide))

/-- C10 witness: the theorem applied to `wDB` over the fully-present range
    2..3 under skip policy. -/
theorem C10_witness :
    ((import_mock_data wDB 1 2 3 false wBase (fun _ => wDay)).2.1 = true ↔
      (import_mock_data wDB 1 2 3 false wBase (fun _ => wDay)).2.2 ≠ []) ∧
    (import_mock_data wDB 1 2 3 false wBase (fun _ => wDay)) = (wDB, false, []) :=
  ⟨(C10_success_iff_new_writes wDB 1 2 3 false wBase (fun _ => wDay)).1,
    (C10_success_iff_new_writes wDB 1 2 3 false wBase (fun _ => wDay)).2 (by decide)
      (by decide)
      (by
        intro d h1 h2
        interval_cases d
        · exact ⟨⟨1, 1, 2, mWit, 2400⟩, by simp [wDB], rfl, rfl⟩
        · exact ⟨⟨2, 1, 3, mWit, 2400⟩, by simp [wDB], rfl, rfl⟩)
      rfl⟩

/-- If any batch of the transaction fails, the whole batch loop raises. -/
theorem runAnomalyBatches_fails (user_id : ℕ) (data : List AnomalyRecord)
    (execFails : ℕ → Bool) :
    ∀ (offs : List ℕ) (tbl : List ARow) (count : ℕ),
      (∃ i ∈ offs, execFails i = true) →
      runAnomalyBatches user_id data execFails offs tbl count = none := by
  intro offs
  induction offs with
  | nil =>
      intro tbl count h
      simp at h
  | cons i rest ih =>
      intro tbl count h
      rw [runAnomalyBatches]
      by_cases hi : execFails i = true
      · rw [if_pos hi]
      · rw [if_neg hi]
        apply ih
        rcases h with ⟨j, hj, hfj⟩
        rcases List.mem_cons.mp hj with rfl | hj'
        · exact absurd hfj hi
        · exact ⟨j, hj', hfj⟩

/-- If no batch fails, the batch loop applies every batch in offset order
    and counts every batched record. -/
theorem runAnomalyBatches_ok (user_id : ℕ) (data : List AnomalyRecord)
    (execFails : ℕ → Bool) :
    ∀ (offs : List ℕ) (tbl : List ARow) (count : ℕ),
      (∀ i ∈ offs, execFails i = false) →
      runAnomalyBatches user_id data execFails offs tbl count =
        some (offs.foldl (fun t i => ((data.drop i).take 1000).foldl (fun t2 rec =>
            upsertAnomalyRow t2 ⟨user_id, rec.date, rec.time_slot, rec.score, rec.label⟩) t) tbl,
          count + (offs.map fun i => ((data.drop i).take 1000).length).sum) := by
  intro offs
  induction offs with
  | nil =>
      intro tbl count _
      simp [runAnomalyBatches]
  | cons i rest ih =>
      intro tbl count h
      rw [runAnomalyBatches]
      rw [if_neg (by rw [h i (List.mem_cons_self i rest)]; simp)]
      rw [ih _ _ fun j hj => h j (List.mem_cons_of_mem i hj)]
      simp only [List.foldl_cons, List.map_cons, List.sum_cons]
      rw [Nat.add_assoc]

/-- The batches `data[0:1000], data[1000:2000], ...` taken at the offsets
    of `range(0, len(data), 1000)` concatenate back to `data`. -/
theorem chunks_flatten {α : Type} :
    ∀ (n : ℕ) (l : List α), l.length ≤ n →
      ((List.range' 0 ((l.length + 999) / 1000) 1000).map fun i =>
        (l.drop i).take 1000).flatten = l := by
  intro n
  induction n with
  | zero =>
      intro l hl
      have : l = [] := List.length_eq_zero.mp (Nat.le_zero.mp hl)
      subst this
      simp
  | succ n ih =>
      intro l hl
      by_cases h0 : l.length = 0
      · have : l = [] := List.length_eq_zero.mp h0
        subst this
        simp
      · have hk : (l.length + 999) / 1000 = ((l.drop 1000).length + 999) / 1000 + 1 := by
          rw [List.length_drop]
          omega
        rw [hk, List.range'_succ, List.map_cons, List.flatten_cons]
        have hr : List.range' (0 + 1000) (((l.drop 1000).length + 999) / 1000) 1000 =
            (List.range' 0 (((l.drop 1000).length + 999) / 1000) 1000).map (1000 + ·) := by
          rw [List.map_add_range']
        rw [hr, List.map_map]
        have hcomp : ((fun i => (l.drop i).take 1000) ∘ (1000 + ·)) =
            fun i => ((l.drop 1000).drop i).take 1000 := by
          funext i
          simp [Function.comp, List.drop_drop, Nat.add_comm]
        rw [hcomp, ih (l.drop 1000) (by rw [List.length_drop]; omega)]
        rw [List.drop_zero, List.take_append_drop]

/-- C6 (amended): anomaly scores are persisted in slices of 1000 rows, but
    all slices run inside one `engine.begin()` transaction: if any slice's
    execute raises, nothing at all is committed and the function reports 0;
    if no slice fails, every record is upserted in order and the full count
    is reported. -/
theorem C6_amended_single_transaction (tbl : List ARow) (user_id : ℕ)
    (data : List AnomalyRecord) (execFails : ℕ → Bool) :
    ((∃ i ∈ List.range' 0 ((data.length + 999) / 1000) 1000, execFails i = true) →
      save_anomaly_scores tbl user_id data execFails = (tbl, 0)) ∧
    ((∀ i ∈ List.range' 0 ((data.length + 999) / 1000) 1000, execFails i = false) →
      save_anomaly_scores tbl user_id data execFails =
        (data.foldl (fun t rec => upsertAnomalyRow t
          ⟨user_id, rec.date, rec.time_slot, rec.score, rec.label⟩) tbl, data.length)) := by
  constructor
  · intro h
    rw [save_anomaly_scores]
    by_cases hd : data.isEmpty
    · rw [if_pos hd]
    · rw [if_neg hd, runAnomalyBatches_fails user_id data execFails _ tbl 0 h]
  · intro h
    rw [save_anomaly_scores]
    by_cases hd : data.isEmpty
    · rw [if_pos hd]
      have hnil : data = [] := List.isEmpty_iff.mp hd
      subst hnil
      simp
    · rw [if_neg hd, runAnomalyBatches_ok user_id data execFails _ tbl 0 h]
      have hchunks := chunks_flatten data.length data le_rfl
      have hfold : data.foldl (fun t rec => upsertAnomalyRow t
            ⟨user_id, rec.date, rec.time_slot, rec.score, rec.label⟩) tbl =
          (List.range' 0 ((data.length + 999) / 1000) 1000).foldl
            (fun t i => ((data.drop i).take 1000).foldl (fun t2 rec =>
              upsertAnomalyRow t2 ⟨user_id, rec.date, rec.time_slot, rec.score, rec.label⟩) t)
            tbl := by
        conv_lhs => rw [← hchunks]
        rw [List.foldl_flatten, List.foldl_map]
      have hlen : data.length =
          ((List.range' 0 ((data.length + 999) / 1000) 1000).map fun i =>
            ((data.drop i).take 1000).length).sum := by
        conv_lhs => rw [← hchunks]
        rw [List.length_flatten, List.map_map]
        rfl
      dsimp only
      rw [Nat.zero_add]
      exact Prod.ext hfold.symm hlen.symm

set_option maxRecDepth 20000 in
/-- C6 (counterexample): 1001 records form two batches; the database
    accepts the first batch (offset 0) and raises on the second (offset
    1000); the whole save is rolled back — the result table is the initial
    empty table, with none of the first batch's records committed, and the
    function returns 0 — refuting "batches committed before a failing
    batch remain committed". -/
theorem C6_counterexample :
    c6Fails 0 = false ∧ c6Fails 1000 = true ∧ 1000 < c6Data.length ∧
    save_anomaly_scores [] 7 c6Data c6Fails = ([], 0) := by
  refine ⟨rfl, rfl, by simp [c6Data], ?_⟩
  rfl

/-- C6 witness: the amended theorem applied to a one-record save, once with
    an always-failing and once with a never-failing database. -/
theorem C6_amended_witness :
    save_anomaly_scores [] 7 [c6WRecord] (fun _ => true) = ([], 0) ∧
    save_anomaly_scores [] 7 [c6WRecord] (fun _ => false) =
      ([⟨7, c6WRecord.date, c6WRecord.time_slot, c6WRecord.score, c6WRecord.label⟩], 1) := by
  constructor
  · exact (C6_amended_single_transaction [] 7 [c6WRecord] fun _ => true).1
      ⟨0, by simp, rfl⟩
  · have h := (C6_amended_single_transaction [] 7 [c6WRecord] fun _ => false).2
      fun i _ => rfl
    rw [h]
    rfl

/-- C8 (amended): group creation happens once; calling create_group again
    with an existing group name does not update anything — the plain INSERT
    violates the unique name constraint, the error is reported and None is
    returned, and the existing group's id, description and creator are left
    completely unchanged.  (A fresh name with an existing creator appends
    exactly one new group row.) -/
theorem C8_amended_reseed_fails (db : DB) (group_name description created_by : String)
    (csd : Option ℕ) (hex : groupNameExists db group_name = true) :
    create_group db group_name description created_by csd = (db, none) := by
  rw [create_group]
  cases hf : db.users.find? fun u => u.username == created_by with
  | none => rfl
  | some creator =>
      dsimp only
      rw [if_pos hex]

/-- C8 (counterexample): re-seeding the existing group "g" with a new
    description fails (returns None) and leaves the stored description
    "old" untouched — refuting "re-seeding the same group name updates the
    description only ... and never fails". -/
theorem C8_counterexample :
    create_group c8DB "g" "new" "admin" none = (c8DB, none) ∧
    (c8DB.groups.map fun g => g.description) = ["old"] := by
  constructor
  · rfl
  · rfl

/-- C8 witness: the amended theorem applied to `c8DB` and its existing
    group name "g". -/
theorem C8_amended_reseed_fails_witness :
    create_group c8DB "g" "other" "admin" none = (c8DB, none) :=
  C8_amended_reseed_fails c8DB "g" "other" "admin" none (by decide)

/-- A malformed group record anywhere in the list makes the groups stage
    raise: the loop body reads the record's keys with no per-entity
    exception handler. -/
theorem processGroups_malformed :
    ∀ (gl : List RawGroup) (db : DB), (∃ g ∈ gl, malformedGroup g) →
      processGroups db gl = none := by
  intro gl
  induction gl with
  | nil =>
      intro db h
      simp at h
  | cons g rest ih =>
      intro db h
      rcases h with ⟨g', hg', hmal⟩
      rcases List.mem_cons.mp hg' with rfl | hmem
      · rcases hmal with h1 | h2 | h3
        · rw [processGroups, h1]
        · cases hn : g'.name with
          | none => rw [processGroups, hn]
          | some n => rw [processGroups, hn, h2]
        · cases hn : g'.name with
          | none => rw [processGroups, hn]
          | some n =>
              cases hd : g'.description with
              | none => rw [processGroups, hn, hd]
              | some d => rw [processGroups, hn, hd, h3]
      · cases hn : g.name with
        | none => rw [processGroups, hn]
        | some n =>
            cases hd : g.description with
            | none => rw [processGroups, hn, hd]
            | some d =>
                cases hc : g.created_by with
                | none => rw [processGroups, hn, hd, hc]
                | some cb =>
                    rw [processGroups, hn, hd, hc]
                    dsimp only
                    rw [ih _ ⟨g', hmem, hmal⟩]

/-- C9 (amended): the admins, participants and generated-data stages each
    process every entity under its own exception handler, so a malformed
    record (missing username/password key) is caught and the stage simply
    continues with the remaining entities; the groups stage has no
    per-entity handler — a group-creation failure reported by create_group
    itself only maps the group to None, but a malformed group record
    raises, is caught only by the run-level handler, and aborts the rest of
    the seeding run, which then reports failure. -/
theorem C9_amended_stage_isolation :
    (∀ (phash : String → String) (db : DB) (a : RawAdmin) (rest : List RawAdmin),
      a.username = none ∨ a.password = none →
      processAdmins phash db (a :: rest) = processAdmins phash db rest) ∧
    (∀ (phash : String → String) (db : DB) (gm : List (String × Option ℕ))
      (p : RawParticipant) (rest : List RawParticipant),
      p.username = none ∨ p.password = none →
      processParticipants phash db gm (p :: rest) = processParticipants phash db gm rest) ∧
    (∀ (db : DB) (pids : List (String × ℕ)) (today : ℕ) (genv : ℕ → GenRand)
      (p : RawParticipant) (rest : List RawParticipant),
      p.username = none →
      processGenData db pids today genv (p :: rest) = processGenData db pids today genv rest) ∧
    (∀ (db : DB) (gl : List RawGroup), (∃ g ∈ gl, malformedGroup g) →
      processGroups db gl = none) ∧
    (∀ (db : DB) (cfg : SeedConfig) (phash : String → String) (today : ℕ)
      (genv : ℕ → GenRand) (adminList : List RawAdmin) (groupList : List RawGroup)
      (partList : List RawParticipant),
      cfg.admins = some adminList → cfg.groups = some groupList →
      cfg.participants = some partList → (∃ g ∈ groupList, malformedGroup g) →
      (seed_database db cfg phash today genv).2 = false) := by
  refine ⟨?_, ?_, ?_, ?_, ?_⟩
  · intro phash db a rest h
    rcases h with h | h
    · rw [processAdmins, h]
    · cases hu : a.username with
      | none => rw [processAdmins, hu]
      | some un => rw [processAdmins, hu, h]
  · intro phash db gm p rest h
    rcases h with h | h
    · rw [processParticipants, h]
    · cases hu : p.username with
      | none => rw [processParticipants, hu]
      | some un => rw [processParticipants, hu, h]
  · intro db pids today genv p rest h
    rw [processGenData, h]
  · exact fun db gl h => processGroups_malformed gl db h
  · intro db cfg phash today genv adminList groupList partList hA hG hP hmal
    rw [seed_database, hA, hG, hP]
    dsimp only
    rw [processGroups_malformed groupList _ hmal]

/-- C9 (counterexample): seeding a config whose groups list starts with a
    malformed record followed by a well-formed group "g2", with one
    well-formed participant "p", aborts the whole run at the malformed
    group: the run reports failure, no participant is created and not even
    the well-formed group "g2" is attempted — refuting "one entity's
    failure is caught and the stage continues with the next entity". -/
theorem C9_counterexample :
    (seed_database emptyDB c9CfgBad (fun s => s) 100 (fun _ => cGen)).2 = false ∧
    (seed_database emptyDB c9CfgBad (fun s => s) 100 (fun _ => cGen)).1.users = [] ∧
    (seed_database emptyDB c9CfgBad (fun s => s) 100 (fun _ => cGen)).1.groups = [] ∧
    c9CfgBad.groups = some [⟨none, some "d", some "a", none⟩,
      ⟨some "g2", some "d2", some "a", none⟩] ∧
    c9CfgBad.participants = some [⟨some "p", some "pw", [], true, 60⟩] :=
  ⟨rfl, rfl, rfl, rfl, rfl⟩

/-- C9 witness: the amended theorem applied to concrete malformed
    entities. -/
theorem C9_amended_stage_isolation_witness :
    processAdmins (fun s => s) emptyDB [⟨none, some "pw"⟩] =
      processAdmins (fun s => s) emptyDB [] ∧
    processParticipants (fun s => s) emptyDB [] [⟨none, some "pw", [], true, 60⟩] =
      processParticipants (fun s => s) emptyDB [] [] ∧
    processGenData emptyDB [] 100 (fun _ => cGen) [⟨none, some "pw", [], true, 60⟩] =
      processGenData emptyDB [] 100 (fun _ => cGen) [] ∧
    processGroups emptyDB [⟨none, some "d", some "a", none⟩] = none ∧
    (seed_database emptyDB c9CfgBad (fun s => s) 100 (fun _ => cGen)).2 = false :=
  ⟨C9_amended_stage_isolation.1 (fun s => s) emptyDB ⟨none, some "pw"⟩ [] (Or.inl rfl),
    C9_amended_stage_isolation.2.1 (fun s => s) emptyDB [] ⟨none, some "pw", [], true, 60⟩ []
      (Or.inl rfl),
    C9_amended_stage_isolation.2.2.1 emptyDB [] 100 (fun _ => cGen)
      ⟨none, some "pw", [], true, 60⟩ [] rfl,
    C9_amended_stage_isolation.2.2.2.1 emptyDB [⟨none, some "d", some "a", none⟩]
      ⟨⟨none, some "d", some "a", none⟩, List.mem_cons_self _ _, Or.inl rfl⟩,
    C9_amended_stage_isolation.2.2.2.2 emptyDB c9CfgBad (fun s => s) 100 (fun _ => cGen)
      [] [⟨none, some "d", some "a", none⟩, ⟨some "g2", some "d2", some "a", none⟩]
      [⟨some "p", some "pw", [], true, 60⟩] rfl rfl rfl
      ⟨⟨none, some "d", some "a", none⟩, List.mem_cons_self _ _, Or.inl rfl⟩⟩

/-- C1: the generator seed is `hash(str(user_id)) % 2**32`, and CPython's
    string hashing is salted per process, so the seed is a function of the
    process's hash salt as well as of the identifier.  Two processes whose
    salted hashes differ on the string "1" derive different seeds for user
    1 — hence different random streams and different generated output —
    refuting "the random stream is fully determined by the identifier on
    any run, any process". -/
theorem C1_seed_depends_on_process_hash :
    mockDataSeed (fun _ => 0) 1 ≠ mockDataSeed (fun _ => 1) 1 := by decide
